import Mathlib

/-!
Verification of the due-detection core of `nhl_due.py`.

Shallow embedding conventions:
* Calendar dates are modelled as `Int` ordinals (`Date`); subtraction of two
  dates is the whole-day difference `(later - earlier).days` of the Python
  `datetime.date` type.  The textual `%Y-%m-%d` parsing done by `_parse_date`
  is elided: every claim under study concerns presence/absence of fields and
  date arithmetic, never the string format, so JSON date fields are modelled
  directly as `Option Date` (present/absent).
* Python `float` arithmetic is modelled by exact rational arithmetic (`Rat`).
* A JSON dictionary field read with `d["k"]` (which raises `KeyError` when
  absent) is modelled as an `Option` field together with `Except Unit`
  results; a field read with `d.get("k", default)` is modelled as
  `Option.getD`.
* The network fetches of `evaluate_due_players` are modelled by an
  environment `Env` holding the parsed responses of each fetch; the control
  flow over those responses is translated faithfully.
-/

namespace NhlDue

/-- Decidable equality for `Except`, needed to evaluate the embedded
fallible computations on concrete inputs. -/
instance decEqExcept {ε α : Type} [DecidableEq ε] [DecidableEq α] :
    DecidableEq (Except ε α) := fun a b =>
  match a, b with
  | .error x, .error y =>
    if h : x = y then .isTrue (by rw [h]) else .isFalse (by simp [h])
  | .error _, .ok _ => .isFalse (by simp)
  | .ok _, .error _ => .isFalse (by simp)
  | .ok x, .ok y =>
    if h : x = y then .isTrue (by rw [h]) else .isFalse (by simp [h])

/-- Antisymmetry instance used by the `List.min?`/`List.max?`
characterisations on integers. -/
instance : Std.Antisymm ((· : Int) ≤ ·) := ⟨fun h₁ h₂ => Int.le_antisymm h₁ h₂⟩

/-- Calendar date, as an ordinal day count (Python `datetime.date`). -/
abbrev Date := Int

/-- Python dataclass `PlayerBaseline` (fields in source order). -/
structure PlayerBaseline where
  player_id : Int
  name : String
  team_id : Int
  team_abbrev : String
  goals : Int
  games_played : Int
  deriving DecidableEq, Repr

/-- Property `PlayerBaseline.goals_per_game`:
`0.0` when `games_played == 0`, else `goals / games_played` (true division). -/
def PlayerBaseline.goals_per_game (p : PlayerBaseline) : Rat :=
  if p.games_played = 0 then 0 else (p.goals : Rat) / (p.games_played : Rat)

/-- Python dataclass `PlayerDueStatus` (fields in source order). -/
structure PlayerDueStatus where
  player : PlayerBaseline
  last_goal_date : Date
  days_since_last_goal : Int
  expected_days_between_goals : Rat
  next_game_opponent : String
  next_game_start_time : String
  deriving DecidableEq, Repr

/-- One entry of a player game log, i.e. one element of the `"data"` list
returned by `fetch_player_gamelog`.  `gameDate` is read with
`entry["gameDate"]` (raises on absence), `goals` with
`entry.get("goals", 0)`. -/
structure GameLogEntry where
  gameDate : Option Date
  goals : Option Int
  deriving DecidableEq, Repr

/-- The goals count of a log entry: `int(entry.get("goals", 0))`. -/
def entryGoals (e : GameLogEntry) : Int :=
  e.goals.getD 0

/-- One skater-summary entry consumed by `fetch_top_goal_scorers`.
`playerId`, `playerName`, `teamId` are read with `entry[...]` and are
modelled as required fields; `teamAbbrevs`, `goals`, `gamesPlayed` are read
with `entry.get(..., default)`. -/
structure SkaterEntry where
  playerId : Int
  playerName : String
  teamId : Int
  teamAbbrevs : Option String
  goals : Option Int
  gamesPlayed : Option Int
  deriving DecidableEq, Repr

/-- `fetch_top_goal_scorers` on an already-fetched `"data"` list: keep the
entries with `goals >= min_goals` (source: `if goals < min_goals: continue`)
and build `PlayerBaseline`s.  The source's default threshold is 40. -/
def fetch_top_goal_scorers (data : List SkaterEntry) (min_goals : Int) :
    List PlayerBaseline :=
  data.filterMap fun entry =>
    if entry.goals.getD 0 < min_goals then none
    else some ⟨entry.playerId, entry.playerName, entry.teamId,
      entry.teamAbbrevs.getD "", entry.goals.getD 0, entry.gamesPlayed.getD 0⟩

/-- The `"team"` object of one side of a scheduled game; both `id` and
`name` are read with `.get`. -/
structure Team where
  id : Option Int
  name : Option String
  deriving DecidableEq, Repr

/-- The `"teams"` object of a scheduled game: `teams.get(side, {}).get("team")`
for each side. -/
structure GameTeams where
  home : Option Team
  away : Option Team
  deriving DecidableEq, Repr

/-- One game inside a day-schedule block; `gameDate` here is the start-time
string read with `game.get("gameDate", "")`. -/
structure ScheduledGame where
  teams : GameTeams
  gameDate : Option String
  deriving DecidableEq, Repr

/-- One block of `schedule_today["dates"]`: its `"games"` list. -/
structure DateBlock where
  games : List ScheduledGame
  deriving DecidableEq, Repr

/-- The full day schedule returned by `fetch_schedule_for_day`. -/
structure ScheduleToday where
  dates : List DateBlock
  deriving DecidableEq, Repr

/-- One block of the team schedule returned by `fetch_schedule_for_range`;
`date` is read with `block["date"]` under a `try/except KeyError`. -/
structure ScheduleBlock where
  date : Option Date
  deriving DecidableEq, Repr

/-- The dictionary returned by `_next_game_for_team`. -/
structure NextGame where
  opponent : String
  startTime : String
  deriving DecidableEq, Repr

/-- `_extract_schedule_dates`: collect `block["date"]` for each block,
skipping (via `except KeyError: continue`) the blocks missing the field. -/
def _extract_schedule_dates : List ScheduleBlock → List Date
  | [] => []
  | b :: rest =>
    match b.date with
    | some d => d :: _extract_schedule_dates rest
    | none => _extract_schedule_dates rest

/-- Successive differences `later - earlier` over `zip(sorted, sorted[1:])`
(the `deltas` list of `average_days_between_games`). -/
def succDeltas (l : List Int) : List Int :=
  (l.zip l.tail).map fun pr => pr.2 - pr.1

/-- `average_days_between_games`: `0.0` for fewer than two dates, else the
arithmetic mean of the successive whole-day differences of the ascending
sort of `dates`. -/
def average_days_between_games (dates : List Date) : Rat :=
  if dates.length < 2 then 0
  else
    let sorted_dates := List.insertionSort (· ≤ ·) dates
    let deltas := succDeltas sorted_dates
    (deltas.sum : Int) / (deltas.length : Rat)

/-- The comprehension `[_parse_date(entry["gameDate"]) for entry in log]`:
produces the dates in source order, failing (Python `KeyError`) as soon as
an entry misses the `gameDate` field. -/
def extract_dates : List GameLogEntry → Except Unit (List Date)
  | [] => .ok []
  | e :: rest =>
    match e.gameDate with
    | none => .error ()
    | some d =>
      match extract_dates rest with
      | .error err => .error err
      | .ok ds => .ok (d :: ds)

/-- `last_goal_date`: the comprehension keeps entries with
`int(entry.get("goals", 0)) > 0` and reads their `gameDate`; the result is
`max(goal_games) if goal_games else None`.  (`List.max?` is definitionally
a fold of `max` over a nonempty list, matching Python `max`.) -/
def last_goal_date (game_log : List GameLogEntry) : Except Unit (Option Date) :=
  match extract_dates (game_log.filter fun e => 0 < entryGoals e) with
  | .error err => .error err
  | .ok goal_games => .ok goal_games.max?

/-- `games_played_dates`: all entry dates in source order, failing on a
missing `gameDate` field. -/
def games_played_dates (game_log : List GameLogEntry) : Except Unit (List Date) :=
  extract_dates game_log

/-- The dates of the goal-scoring entries that actually carry a date; used
to state what `last_goal_date` maximises over. -/
def goal_dates (game_log : List GameLogEntry) : List Date :=
  (game_log.filter fun e => 0 < entryGoals e).filterMap GameLogEntry.gameDate

/-- One side-check of `_next_game_for_team`'s inner loop: if `mine` is a
present team whose `id` equals `team_id`, return the opponent's name
(`.get("name", "")`, from `.get("team", {})`) and the start time. -/
def _side_hit (team_id : Int) (mine opp : Option Team) (start : String) :
    Option NextGame :=
  match mine with
  | none => none
  | some t =>
    if t.id = some team_id then
      some ⟨(match opp with | some o => o.name.getD "" | none => ""), start⟩
    else none

/-- The body of `_next_game_for_team`'s loop over one game: try the home
side first, then the away side. -/
def _game_hit (team_id : Int) (g : ScheduledGame) : Option NextGame :=
  match _side_hit team_id g.teams.home g.teams.away (g.gameDate.getD "") with
  | some r => some r
  | none => _side_hit team_id g.teams.away g.teams.home (g.gameDate.getD "")

/-- `_next_game_for_team`: first match over all date blocks and games of the
day schedule, `None` if the team appears nowhere. -/
def _next_game_for_team (schedule_today : ScheduleToday) (team_id : Int) :
    Option NextGame :=
  schedule_today.dates.findSome? fun block => block.games.findSome? (_game_hit team_id)

/-- The team ids collected from one game when building
`teams_playing_today` (ids are added even when `team.get("id")` is absent,
hence `Option Int`). -/
def game_team_ids (g : ScheduledGame) : List (Option Int) :=
  (match g.teams.home with | some t => [t.id] | none => []) ++
  (match g.teams.away with | some t => [t.id] | none => [])

/-- The `teams_playing_today` set built by `evaluate_due_players` (a list
here; only membership is ever used). -/
def teams_playing_today (schedule_today : ScheduleToday) : List (Option Int) :=
  schedule_today.dates.flatMap fun block => block.games.flatMap game_team_ids

/-- Decimal value of a digit string, `none` when a non-digit occurs. -/
def digitsToNat (cs : List Char) : Option Nat :=
  cs.foldl
    (fun acc c =>
      match acc with
      | none => none
      | some n => if c.isDigit then some (n * 10 + (c.toNat - 48)) else none)
    (some 0)

/-- The Python `int(...)` parse of a season-id string: an optional leading
minus sign followed by decimal digits; an unparsable string (Python
`ValueError`) is modelled as `none`.  (Python's tolerance for surrounding
whitespace, a leading plus and digit-group underscores is not exercised by
season ids and is not modelled.) -/
def pyIntOfString (s : String) : Option Int :=
  match s.data with
  | [] => none
  | '-' :: rest =>
    if rest.isEmpty then none
    else (digitsToNat rest).map fun n => -(n : Int)
  | cs => (digitsToNat cs).map fun n => (n : Int)

/-- `get_previous_season_id`: `str(int(current_season_id) - 1)`. -/
def get_previous_season_id (current_season_id : String) : Option String :=
  (pyIntOfString current_season_id).map fun n => toString (n - 1)

/-- The parsed responses of the remote fetches performed by one run of
`evaluate_due_players`: the full day schedule for `today`, the skater
summary rows for the previous season, the per-player game log for the
current season, and the per-team schedule from season start to `today`. -/
structure Env where
  schedule_today : ScheduleToday
  skater_data : List SkaterEntry
  gamelog : Int → List GameLogEntry
  team_schedule : Int → List ScheduleBlock
  today : Date

/-- The candidate baseline set of `evaluate_due_players`: top scorers of the
previous season (threshold 40) whose team id is in the playing-today set. -/
def candidate_baselines (env : Env) : List PlayerBaseline :=
  (fetch_top_goal_scorers env.skater_data 40).filter
    fun p => some p.team_id ∈ teams_playing_today env.schedule_today

/-- The body of `evaluate_due_players`' per-player loop, lines 226-254 of
the source: returns `none` for a skipped player, `some` record for a due
player, and propagates a game-log `KeyError` as an error. -/
def process_player (env : Env) (p : PlayerBaseline) :
    Except Unit (Option PlayerDueStatus) :=
  match last_goal_date (env.gamelog p.player_id) with
  | .error err => .error err
  | .ok none => .ok none
  | .ok (some last_goal) =>
    match games_played_dates (env.gamelog p.player_id) with
    | .error err => .error err
    | .ok played_dates =>
      let schedule_dates := _extract_schedule_dates (env.team_schedule p.team_id)
      -- Python `schedule_dates or played_dates`: an empty list is falsy.
      let avg_days := average_days_between_games
        (if schedule_dates.isEmpty then played_dates else schedule_dates)
      if avg_days = 0 then .ok none
      else if p.goals_per_game = 0 then .ok none
      else
        let expected_days := (1 / p.goals_per_game) * avg_days
        let days_since_goal := env.today - last_goal
        if (days_since_goal : Rat) ≤ expected_days then .ok none
        else
          match _next_game_for_team env.schedule_today p.team_id with
          | none => .ok none
          | some next_game =>
            .ok (some ⟨p, last_goal, days_since_goal, expected_days,
              next_game.opponent, next_game.startTime⟩)

/-- The `for player in baselines` loop of `evaluate_due_players`,
accumulating the emitted records in iteration order and aborting on the
first uncaught exception. -/
def eval_loop (env : Env) : List PlayerBaseline → Except Unit (List PlayerDueStatus)
  | [] => .ok []
  | p :: rest =>
    match process_player env p with
    | .error err => .error err
    | .ok none => eval_loop env rest
    | .ok (some s) =>
      match eval_loop env rest with
      | .error err => .error err
      | .ok others => .ok (s :: others)

/-- `evaluate_due_players` over the fetched data in `Env`. -/
def evaluate_due_players (env : Env) : Except Unit (List PlayerDueStatus) :=
  eval_loop env (candidate_baselines env)

/-- Round a rational to the nearest integer, ties to even, as Python's
fixed-point float formatting does. -/
def roundHalfEven (x : Rat) : Int :=
  let f : Int := ⌊x⌋
  let r : Rat := x - (f : Rat)
  if r < 1/2 then f
  else if 1/2 < r then f + 1
  else if f % 2 = 0 then f else f + 1

/-- Python `f"{q:.1f}"` on our rational model of floats: one digit after
the decimal point, rounding half to even. -/
def formatFixed1 (q : Rat) : String :=
  let n := roundHalfEven (q * 10)
  if n < 0 then "-" ++ toString ((-n) / 10) ++ "." ++ toString ((-n) % 10)
  else toString (n / 10) ++ "." ++ toString (n % 10)

/-- One table row of `format_due_players` (the f-string of lines 268-273). -/
def format_row (entry : PlayerDueStatus) : String :=
  entry.player.name ++ " | " ++ entry.player.team_abbrev ++ " | " ++
    toString entry.days_since_last_goal ++ " | " ++
    formatFixed1 entry.expected_days_between_goals ++ " | " ++
    entry.next_game_opponent ++ " | " ++ entry.next_game_start_time

/-- `format_due_players`: the fixed sentence for an empty list, otherwise
the title, header and separator lines followed by one row per record,
joined with newlines. -/
def format_due_players (due_players : List PlayerDueStatus) : String :=
  if due_players.isEmpty then
    "No players are past due based on last season's scoring rate."
  else
    String.intercalate "\n"
      ("Past due goal scorers with games today:" ::
       "Player | Team | Days Since Last Goal | Expected Days | Opponent | Game Time" ::
       "------ | ---- | -------------------- | ------------- | -------- | ---------" ::
       due_players.map format_row)

/-! Concrete scenario data, used by witnesses and counterexamples.  The
"due" scenario follows end-to-end scenario 1 of the spec: a 40-goal,
40-game scorer (1.0 goals per game) on a team with a 3-day schedule
cadence whose last goal was 10 days before the evaluation date. -/

/-- Teams of the single game of the day: home id 5, away id 7. -/
def due_teams : GameTeams :=
  ⟨some ⟨some 5, some "Avalanche"⟩, some ⟨some 7, some "Bruins"⟩⟩

/-- Day schedule holding that single game, starting at "19:00". -/
def due_schedule_today : ScheduleToday :=
  ⟨[⟨[⟨due_teams, some "19:00"⟩]⟩]⟩

/-- One previous-season skater row: player 9 of team 5, 40 goals in 40 games. -/
def due_skaters : List SkaterEntry :=
  [⟨9, "Pat", 5, some "AVA", some 40, some 40⟩]

/-- Current-season game log: a goal on day 110, a goalless game on day 113. -/
def due_gamelog : List GameLogEntry :=
  [⟨some 110, some 1⟩, ⟨some 113, some 0⟩]

/-- Team schedule: games on days 100, 103, 106 (cadence 3 days). -/
def due_team_schedule : List ScheduleBlock :=
  [⟨some 100⟩, ⟨some 103⟩, ⟨some 106⟩]

/-- Environment of the due scenario, evaluated on day 120. -/
def env_due : Env :=
  ⟨due_schedule_today, due_skaters, fun _ => due_gamelog,
    fun _ => due_team_schedule, 120⟩

/-- The baseline built from `due_skaters`. -/
def due_player : PlayerBaseline := ⟨9, "Pat", 5, "AVA", 40, 40⟩

/-- The record emitted for the due scenario: last goal day 110, drought 10
days against an expected 3.0 days, next game against the Bruins. -/
def due_record : PlayerDueStatus := ⟨due_player, 110, 10, 3, "Bruins", "19:00"⟩

/-- Boundary environment: identical, but evaluated on day 113, so the
drought (3 days) exactly equals the expected days between goals (3.0). -/
def env_boundary : Env :=
  ⟨due_schedule_today, due_skaters, fun _ => due_gamelog,
    fun _ => due_team_schedule, 113⟩

/-- Environment whose game log contains no goal-scoring entry. -/
def env_nogoal : Env :=
  ⟨due_schedule_today, due_skaters, fun _ => [⟨some 110, some 0⟩],
    fun _ => due_team_schedule, 120⟩

/-- The spec's Goal-Drought example: goals `[0, 0, 2, 0, 3]` on ascending
dates `1 < 2 < 3 < 4 < 5`. -/
def log5 : List GameLogEntry :=
  [⟨some 1, some 0⟩, ⟨some 2, some 0⟩, ⟨some 3, some 2⟩,
   ⟨some 4, some 0⟩, ⟨some 5, some 3⟩]

/-- Environment whose game log has a goal-scoring entry that is missing the
`gameDate` field. -/
def env_bad : Env :=
  ⟨due_schedule_today, due_skaters, fun _ => [⟨none, some 1⟩],
    fun _ => due_team_schedule, 120⟩

/-- The ascending sort of the concrete team schedule is itself. -/
lemma sort_due : List.insertionSort (· ≤ ·) ([100, 103, 106] : List Int) =
    [100, 103, 106] := by decide

/-- The schedule cadence of the due scenario is 3.0 days. -/
lemma avg_due : average_days_between_games [100, 103, 106] = 3 := by
  simp only [average_days_between_games, succDeltas, sort_due]
  norm_num

/-- The due-scenario baseline scores 1.0 goals per game. -/
lemma gpg_due : due_player.goals_per_game = 1 := by
  norm_num [PlayerBaseline.goals_per_game, due_player]

/-- Evaluating the per-player pipeline on the due scenario emits the
expected record. -/
lemma process_due : process_player env_due due_player = .ok (some due_record) := by
  have h1 : last_goal_date (env_due.gamelog due_player.player_id) =
      .ok (some 110) := by decide
  have h2 : games_played_dates (env_due.gamelog due_player.player_id) =
      .ok [110, 113] := by decide
  have h3 : _extract_schedule_dates (env_due.team_schedule due_player.team_id) =
      [100, 103, 106] := by decide
  have h4 : _next_game_for_team env_due.schedule_today due_player.team_id =
      some ⟨"Bruins", "19:00"⟩ := by decide
  simp only [process_player, h1, h2, h3, h4]
  norm_num [avg_due, gpg_due, due_record, env_due]

/-- The candidate set of the due scenario is exactly the one baseline. -/
lemma candidates_due : candidate_baselines env_due = [due_player] := by decide

/-- The full due-scenario run emits exactly the one record. -/
lemma eval_due : evaluate_due_players env_due = .ok [due_record] := by
  unfold evaluate_due_players
  rw [candidates_due]
  simp only [eval_loop, process_due]

/-- On the boundary scenario (drought = expected = 3.0) the player is
excluded. -/
lemma process_boundary : process_player env_boundary due_player = .ok none := by
  have h1 : last_goal_date (env_boundary.gamelog due_player.player_id) =
      .ok (some 110) := by decide
  have h2 : games_played_dates (env_boundary.gamelog due_player.player_id) =
      .ok [110, 113] := by decide
  have h3 : _extract_schedule_dates (env_boundary.team_schedule due_player.team_id) =
      [100, 103, 106] := by decide
  simp only [process_player, h1, h2, h3]
  norm_num [avg_due, gpg_due, env_boundary]

/-- A player with no goal-scoring log entry is excluded. -/
lemma process_nogoal : process_player env_nogoal due_player = .ok none := by decide

/-- A goal-scoring log entry missing its date aborts the whole run. -/
lemma eval_bad : evaluate_due_players env_bad = .error () := by decide

/-- Rounding the rational 30 to the nearest integer gives 30. -/
lemma roundHalfEven_30 : roundHalfEven 30 = 30 := by
  simp only [roundHalfEven]
  norm_num

/-- The expected-days value 3.0 of the due scenario renders as "3.0". -/
lemma formatFixed1_three : formatFixed1 3 = "3.0" := by
  simp only [formatFixed1]
  rw [show (3 : Rat) * 10 = 30 by norm_num, roundHalfEven_30]
  decide

/-- The table row of the due-scenario record. -/
lemma format_row_due :
    format_row due_record = "Pat | AVA | 10 | 3.0 | Bruins | 19:00" := by
  simp only [format_row, due_record, due_player, formatFixed1_three]
  decide

set_option maxRecDepth 8000 in
/-- The full report text of the due scenario. -/
lemma format_due :
    format_due_players [due_record] =
      "Past due goal scorers with games today:\nPlayer | Team | Days Since Last Goal | Expected Days | Opponent | Game Time\n------ | ---- | -------------------- | ------------- | -------- | ---------\nPat | AVA | 10 | 3.0 | Bruins | 19:00" := by
  simp only [format_due_players, List.map, format_row_due]
  decide

/-- Successful date extraction returns exactly the present dates (and, per
`extract_dates_no_missing` below, all entries then carry one). -/
lemma extract_dates_ok : ∀ {l : List GameLogEntry} {ds : List Date},
    extract_dates l = .ok ds → ds = l.filterMap GameLogEntry.gameDate := by
  intro l
  induction l with
  | nil =>
    intro ds h
    simp only [extract_dates] at h
    cases h
    simp
  | cons e rest ih =>
    intro ds h
    cases hd : e.gameDate with
    | none =>
      simp only [extract_dates, hd] at h
      exact (Except.noConfusion h)
    | some d =>
      simp only [extract_dates, hd] at h
      cases hr : extract_dates rest with
      | error err => rw [hr] at h; simp at h
      | ok ds' =>
        rw [hr] at h
        simp at h
        rw [← h, List.filterMap_cons, hd, ih hr]

/-- Successful date extraction means no entry was missing its date. -/
lemma extract_dates_no_missing : ∀ {l : List GameLogEntry} {ds : List Date},
    extract_dates l = .ok ds → ∀ e ∈ l, e.gameDate ≠ none := by
  intro l
  induction l with
  | nil => intro ds _ e he; simp at he
  | cons e0 rest ih =>
    intro ds h e he
    cases hd : e0.gameDate with
    | none =>
      simp only [extract_dates, hd] at h
      exact (Except.noConfusion h)
    | some d =>
      simp only [extract_dates, hd] at h
      cases hr : extract_dates rest with
      | error err => rw [hr] at h; simp at h
      | ok ds' =>
        rcases List.mem_cons.mp he with rfl | hmem
        · simp [hd]
        · exact ih hr e hmem

/-- Date extraction fails exactly when some entry is missing its date. -/
lemma extract_dates_error_iff : ∀ {l : List GameLogEntry},
    extract_dates l = .error () ↔ ∃ e ∈ l, e.gameDate = none := by
  intro l
  induction l with
  | nil => simp [extract_dates]
  | cons e rest ih =>
    cases hd : e.gameDate with
    | none =>
      simp only [extract_dates, hd]
      constructor
      · intro _; exact ⟨e, by simp, hd⟩
      · intro _; trivial
    | some d =>
      simp only [extract_dates, hd]
      cases hr : extract_dates rest with
      | error err =>
        cases err
        constructor
        · intro _
          obtain ⟨e', he', hd'⟩ := ih.mp hr
          exact ⟨e', by simp [he'], hd'⟩
        · intro _; rfl
      | ok ds =>
        constructor
        · intro h; simp at h
        · rintro ⟨e', he', hd'⟩
          rcases List.mem_cons.mp he' with rfl | hmem
          · rw [hd] at hd'; cases hd'
          · have herr : extract_dates rest = .error () := ih.mpr ⟨e', hmem, hd'⟩
            rw [herr] at hr; simp at hr

/-- A successful `last_goal_date` is the maximum of the goal-entry dates. -/
lemma last_goal_date_ok : ∀ {log : List GameLogEntry} {v : Option Date},
    last_goal_date log = .ok v → v = (goal_dates log).max? := by
  intro log v h
  unfold last_goal_date at h
  cases hr : extract_dates (log.filter fun e => 0 < entryGoals e) with
  | error err => rw [hr] at h; simp at h
  | ok gg =>
    rw [hr] at h
    simp at h
    rw [← h, goal_dates, ← extract_dates_ok hr]

/-- `last_goal_date` fails exactly when a goal-scoring entry misses its
date. -/
lemma last_goal_date_error_iff : ∀ {log : List GameLogEntry},
    last_goal_date log = .error () ↔
      ∃ e ∈ log, 0 < entryGoals e ∧ e.gameDate = none := by
  intro log
  unfold last_goal_date
  cases hr : extract_dates (log.filter fun e => 0 < entryGoals e) with
  | error err =>
    cases err
    constructor
    · intro _
      obtain ⟨e, he, hd⟩ := extract_dates_error_iff.mp hr
      have hm := List.mem_filter.mp he
      exact ⟨e, hm.1, by simpa using hm.2, hd⟩
    · intro _; rfl
  | ok gg =>
    constructor
    · intro h; simp at h
    · rintro ⟨e, he, hgoal, hd⟩
      have herr : extract_dates (log.filter fun e => 0 < entryGoals e) = .error () :=
        extract_dates_error_iff.mpr ⟨e, List.mem_filter.mpr ⟨he, by simpa using hgoal⟩, hd⟩
      rw [herr] at hr; simp at hr

/-- `games_played_dates` fails exactly when some entry misses its date. -/
lemma games_played_dates_error_iff : ∀ {log : List GameLogEntry},
    games_played_dates log = .error () ↔ ∃ e ∈ log, e.gameDate = none := by
  intro log
  unfold games_played_dates
  exact extract_dates_error_iff

/-- The schedule-date extraction keeps exactly the present dates. -/
lemma extract_schedule_dates_eq : ∀ blocks : List ScheduleBlock,
    _extract_schedule_dates blocks = blocks.filterMap ScheduleBlock.date := by
  intro blocks
  induction blocks with
  | nil => rfl
  | cons b rest ih =>
    cases hd : b.date with
    | none => simp [_extract_schedule_dates, hd, List.filterMap_cons, ih]
    | some d => simp [_extract_schedule_dates, hd, List.filterMap_cons, ih]

/-- Characterisation of `List.max?` on integer lists. -/
lemma int_max?_eq_some_iff {l : List Int} {a : Int} :
    l.max? = some a ↔ a ∈ l ∧ ∀ b ∈ l, b ≤ a :=
  List.max?_eq_some_iff (fun x => le_refl x) (fun x y => max_choice x y)
    (fun _ _ _ => max_le_iff)

/-- Characterisation of `List.min?` on integer lists. -/
lemma int_min?_eq_some_iff {l : List Int} {a : Int} :
    l.min? = some a ↔ a ∈ l ∧ ∀ b ∈ l, a ≤ b :=
  List.min?_eq_some_iff (fun x => le_refl x) (fun x y => min_choice x y)
    (fun _ _ _ => le_min_iff)

/-- `List.max?` is invariant under permutation (integer lists). -/
lemma max?_perm {l l' : List Int} (h : l.Perm l') : l.max? = l'.max? := by
  cases hm : l'.max? with
  | none =>
    rw [List.max?_eq_none_iff] at hm ⊢
    rw [hm] at h
    exact h.eq_nil
  | some a =>
    rw [int_max?_eq_some_iff] at hm ⊢
    exact ⟨h.mem_iff.mpr hm.1, fun b hb => hm.2 b (h.subset hb)⟩

/-- `List.min?` is invariant under permutation (integer lists). -/
lemma min?_perm {l l' : List Int} (h : l.Perm l') : l.min? = l'.min? := by
  cases hm : l'.min? with
  | none =>
    rw [List.min?_eq_none_iff] at hm ⊢
    rw [hm] at h
    exact h.eq_nil
  | some a =>
    rw [int_min?_eq_some_iff] at hm ⊢
    exact ⟨h.mem_iff.mpr hm.1, fun b hb => hm.2 b (h.subset hb)⟩

/-- Folding `min` over elements all at least `a` returns `a`. -/
lemma foldl_min_of_le : ∀ (t : List Int) (a : Int), (∀ x ∈ t, a ≤ x) →
    t.foldl min a = a := by
  intro t
  induction t with
  | nil => intro a _; rfl
  | cons b t' ih =>
    intro a h
    rw [List.foldl_cons, min_eq_left (h b (by simp))]
    exact ih a fun x hx => h x (by simp [hx])

/-- Folding `max` over the tail of a sorted list reaches its last element. -/
lemma foldl_max_sorted : ∀ (t : List Int) (a : Int),
    (a :: t).Sorted (· ≤ ·) → t.foldl max a = t.getLastD a := by
  intro t
  induction t with
  | nil => intro a _; rfl
  | cons b t' ih =>
    intro a h
    rw [List.foldl_cons, max_eq_right ((List.sorted_cons.mp h).1 b (by simp)),
      List.getLastD_cons]
    exact ih b (List.sorted_cons.mp h).2

/-- The head of a sorted nonempty list is its minimum. -/
lemma sorted_min? {a : Int} {t : List Int} (h : (a :: t).Sorted (· ≤ ·)) :
    (a :: t).min? = some a := by
  show some (t.foldl min a) = some a
  exact congrArg some (foldl_min_of_le t a (List.sorted_cons.mp h).1)

/-- The last element of a sorted nonempty list is its maximum. -/
lemma sorted_max? {a : Int} {t : List Int} (h : (a :: t).Sorted (· ≤ ·)) :
    (a :: t).max? = some (t.getLastD a) := by
  show some (t.foldl max a) = some (t.getLastD a)
  exact congrArg some (foldl_max_sorted t a h)

/-- Successive deltas of a two-or-more element list, cons form. -/
lemma succDeltas_cons_cons (a b : Int) (t : List Int) :
    succDeltas (a :: b :: t) = (b - a) :: succDeltas (b :: t) := rfl

/-- The successive deltas of a list telescope to last minus first. -/
lemma succDeltas_sum : ∀ (t : List Int) (a : Int),
    (succDeltas (a :: t)).sum = t.getLastD a - a := by
  intro t
  induction t with
  | nil => intro a; simp [succDeltas]
  | cons b t' ih =>
    intro a
    rw [succDeltas_cons_cons, List.sum_cons, ih b, List.getLastD_cons]
    ring

/-- There is one delta fewer than there are dates. -/
lemma succDeltas_length (a : Int) (t : List Int) :
    (succDeltas (a :: t)).length = t.length := by
  simp [succDeltas, List.length_zip]

/-- Deltas of a sorted list are nonnegative. -/
lemma succDeltas_nonneg : ∀ (l : List Int), l.Sorted (· ≤ ·) →
    ∀ x ∈ succDeltas l, 0 ≤ x := by
  intro l
  induction l with
  | nil => intro _ x hx; simp [succDeltas] at hx
  | cons a t ih =>
    intro hl x hx
    cases t with
    | nil => simp [succDeltas] at hx
    | cons b t' =>
      rw [succDeltas_cons_cons] at hx
      rcases List.mem_cons.mp hx with rfl | hx'
      · have hab : a ≤ b := (List.sorted_cons.mp hl).1 b (by simp)
        omega
      · exact ih (List.sorted_cons.mp hl).2 x hx'

/-- The cadence estimate is never negative. -/
lemma avg_nonneg (dates : List Int) : 0 ≤ average_days_between_games dates := by
  unfold average_days_between_games
  by_cases hlen : dates.length < 2
  · rw [if_pos hlen]
  · rw [if_neg hlen]
    apply div_nonneg
    · have hs : ∀ x ∈ succDeltas (List.insertionSort (· ≤ ·) dates), (0 : Int) ≤ x :=
        succDeltas_nonneg _ (List.sorted_insertionSort _ _)
      exact_mod_cast List.sum_nonneg hs
    · positivity

/-- For two or more dates, the cadence estimate is the spread between the
earliest and latest dates divided by one less than the number of dates:
the arithmetic mean of the successive gaps of the ascending sort. -/
lemma avg_eq_spread (dates : List Int) (dmin dmax : Int) (hlen : 2 ≤ dates.length)
    (hmin : dates.min? = some dmin) (hmax : dates.max? = some dmax) :
    average_days_between_games dates =
      ((dmax - dmin : Int) : Rat) / ((dates.length : Rat) - 1) := by
  have hunf : average_days_between_games dates =
      ((succDeltas (List.insertionSort (· ≤ ·) dates)).sum : Int) /
        ((succDeltas (List.insertionSort (· ≤ ·) dates)).length : Rat) := by
    unfold average_days_between_games
    rw [if_neg (by omega)]
  rw [hunf]
  have hperm : (List.insertionSort (· ≤ ·) dates).Perm dates :=
    List.perm_insertionSort _ _
  have hsort : (List.insertionSort (· ≤ ·) dates).Sorted (· ≤ ·) :=
    List.sorted_insertionSort _ _
  have hlenS : (List.insertionSort (· ≤ ·) dates).length = dates.length :=
    hperm.length_eq
  obtain ⟨a, t, hat⟩ : ∃ a t, List.insertionSort (· ≤ ·) dates = a :: t := by
    cases hSc : List.insertionSort (· ≤ ·) dates with
    | nil => rw [hSc] at hlenS; simp at hlenS; omega
    | cons a t => exact ⟨a, t, rfl⟩
  rw [hat] at hperm hsort hlenS ⊢
  have hdmin : dmin = a := by
    have hh := (min?_perm hperm).trans hmin
    rw [sorted_min? hsort] at hh
    exact (Option.some.inj hh).symm
  have hdmax : dmax = t.getLastD a := by
    have hh := (max?_perm hperm).trans hmax
    rw [sorted_max? hsort] at hh
    exact (Option.some.inj hh).symm
  rw [succDeltas_sum, succDeltas_length, hdmin, hdmax, ← hlenS, List.length_cons]
  push_cast
  ring_nf

/-- Everything that is true of a record emitted by the per-player pipeline:
the record belongs to the processed player, carries their last goal date
and whole-day drought, was gated by a nonzero cadence and nonzero
goals-per-game, passed the strict drought comparison, and records the next
game found in the day schedule. -/
lemma process_player_some_spec {env : Env} {p : PlayerBaseline}
    {s : PlayerDueStatus} (h : process_player env p = .ok (some s)) :
    s.player = p ∧
    last_goal_date (env.gamelog p.player_id) = .ok (some s.last_goal_date) ∧
    s.days_since_last_goal = env.today - s.last_goal_date ∧
    p.goals_per_game ≠ 0 ∧
    (∃ ds, average_days_between_games ds ≠ 0 ∧
      s.expected_days_between_goals =
        (1 / p.goals_per_game) * average_days_between_games ds) ∧
    s.expected_days_between_goals < (s.days_since_last_goal : Rat) ∧
    _next_game_for_team env.schedule_today p.team_id =
      some ⟨s.next_game_opponent, s.next_game_start_time⟩ := by
  unfold process_player at h
  cases hlg : last_goal_date (env.gamelog p.player_id) with
  | error err => rw [hlg] at h; simp at h
  | ok olg =>
    rw [hlg] at h
    cases olg with
    | none => simp at h
    | some lg =>
      cases hpd : games_played_dates (env.gamelog p.player_id) with
      | error err => rw [hpd] at h; simp at h
      | ok played =>
        rw [hpd] at h
        simp only [] at h
        by_cases havg : average_days_between_games
            (if (_extract_schedule_dates (env.team_schedule p.team_id)).isEmpty
              then played else _extract_schedule_dates (env.team_schedule p.team_id)) = 0
        · rw [if_pos havg] at h; simp at h
        · rw [if_neg havg] at h
          by_cases hgpg : p.goals_per_game = 0
          · rw [if_pos hgpg] at h; simp at h
          · rw [if_neg hgpg] at h
            by_cases hle : ((env.today - lg : Int) : Rat) ≤
                (1 / p.goals_per_game) * average_days_between_games
                  (if (_extract_schedule_dates (env.team_schedule p.team_id)).isEmpty
                    then played else _extract_schedule_dates (env.team_schedule p.team_id))
            · rw [if_pos hle] at h; simp at h
            · rw [if_neg hle] at h
              cases hng : _next_game_for_team env.schedule_today p.team_id with
              | none => rw [hng] at h; simp at h
              | some ng =>
                rw [hng] at h
                simp only [Except.ok.injEq, Option.some.injEq] at h
                subst h
                refine ⟨rfl, ?_, rfl, hgpg, ⟨_, havg, rfl⟩, not_le.mp hle, ?_⟩
                · exact rfl
                · simp [hng]

/-- Records returned by the evaluation loop come from processing one of
its candidates. -/
lemma eval_loop_mem (env : Env) : ∀ {l : List PlayerBaseline}
    {res : List PlayerDueStatus}, eval_loop env l = .ok res →
    ∀ s ∈ res, ∃ p ∈ l, process_player env p = .ok (some s) := by
  intro l
  induction l with
  | nil =>
    intro res h s hs
    simp only [eval_loop] at h
    cases h
    simp at hs
  | cons p rest ih =>
    intro res h s hs
    simp only [eval_loop] at h
    cases hp : process_player env p with
    | error err => rw [hp] at h; simp at h
    | ok o =>
      rw [hp] at h
      cases o with
      | none =>
        obtain ⟨q, hq, hq2⟩ := ih h s hs
        exact ⟨q, by simp [hq], hq2⟩
      | some s0 =>
        cases hr : eval_loop env rest with
        | error err => rw [hr] at h; simp at h
        | ok others =>
          rw [hr] at h
          simp only [Except.ok.injEq] at h
          subst h
          rcases List.mem_cons.mp hs with rfl | hmem
          · exact ⟨p, by simp, hp⟩
          · obtain ⟨q, hq, hq2⟩ := ih hr s hmem
            exact ⟨q, by simp [hq], hq2⟩

/-- Members of the top-scorer list reach the goal threshold and take their
games-played count from some fetched row. -/
lemma mem_fetch_top {data : List SkaterEntry} {m : Int} {p : PlayerBaseline}
    (h : p ∈ fetch_top_goal_scorers data m) :
    m ≤ p.goals ∧ ∃ e ∈ data, p.games_played = e.gamesPlayed.getD 0 := by
  unfold fetch_top_goal_scorers at h
  obtain ⟨e, he, hfe⟩ := List.mem_filterMap.mp h
  by_cases hlt : e.goals.getD 0 < m
  · rw [if_pos hlt] at hfe; simp at hfe
  · rw [if_neg hlt] at hfe
    simp only [Option.some.injEq] at hfe
    subst hfe
    exact ⟨not_lt.mp hlt, e, he, rfl⟩

/-- C1: the claim that game-log entries missing the required date field are
skipped individually by `last_goal_date` and `games_played_dates` is false:
both computations fail on such an entry (Python raises `KeyError`), and in
`env_bad` that failure aborts the whole evaluation run. -/
theorem C1_counterexample :
    last_goal_date [(⟨none, some 1⟩ : GameLogEntry)] = .error () ∧
    games_played_dates [(⟨none, some 0⟩ : GameLogEntry)] = .error () ∧
    evaluate_due_players env_bad = .error () :=
  ⟨by decide, by decide, eval_bad⟩

/-- C1 (amended): the skip-on-missing-date leniency lives in the schedule
extraction, which keeps exactly the blocks carrying a date; in the game-log
computations, `last_goal_date` fails exactly when some entry with more than
zero goals (a missing goals field counts as zero) is missing its date, and
`games_played_dates` fails exactly when any entry is missing its date. -/
theorem C1_amended_leniency :
    (∀ blocks : List ScheduleBlock,
      _extract_schedule_dates blocks = blocks.filterMap ScheduleBlock.date) ∧
    (∀ log : List GameLogEntry,
      (last_goal_date log = .error () ↔
        ∃ e ∈ log, 0 < entryGoals e ∧ e.gameDate = none)) ∧
    (∀ log : List GameLogEntry,
      (games_played_dates log = .error () ↔ ∃ e ∈ log, e.gameDate = none)) :=
  ⟨extract_schedule_dates_eq, fun log => @last_goal_date_error_iff log,
    fun log => @games_played_dates_error_iff log⟩

/-- C2: a record is emitted only when the drought strictly exceeds the
expected days between goals, and in the boundary scenario — where the
drought (3 days) exactly equals the expected value (3.0) — the player is
excluded. -/
theorem C2_strict_threshold :
    (∀ (env : Env) (p : PlayerBaseline) (s : PlayerDueStatus),
      process_player env p = .ok (some s) →
      s.expected_days_between_goals < (s.days_since_last_goal : Rat)) ∧
    process_player env_boundary due_player = .ok none :=
  ⟨fun _ _ _ h => (process_player_some_spec h).2.2.2.2.2.1, process_boundary⟩

/-- C2 witness: the due scenario emits a record satisfying the strict
inequality. -/
theorem C2_witness :
    process_player env_due due_player = .ok (some due_record) ∧
    due_record.expected_days_between_goals <
      (due_record.days_since_last_goal : Rat) :=
  ⟨process_due, C2_strict_threshold.1 env_due due_player due_record process_due⟩

/-- C3: every emitted record passed the strict drought comparison and a
game for the record's team was found in the evaluation date's schedule. -/
theorem C3_emitted_invariant : ∀ (env : Env) (res : List PlayerDueStatus)
    (s : PlayerDueStatus), evaluate_due_players env = .ok res → s ∈ res →
    s.expected_days_between_goals < (s.days_since_last_goal : Rat) ∧
    ∃ g, _next_game_for_team env.schedule_today s.player.team_id = some g := by
  intro env res s h hs
  unfold evaluate_due_players at h
  obtain ⟨p, hp, hproc⟩ := eval_loop_mem env h s hs
  obtain ⟨hpl, -, -, -, -, hlt, hng⟩ := process_player_some_spec hproc
  refine ⟨hlt, ?_⟩
  rw [hpl]
  exact ⟨_, hng⟩

/-- C3 witness: the due-scenario run, evaluated concretely. -/
theorem C3_witness :
    evaluate_due_players env_due = .ok [due_record] ∧
    (due_record.expected_days_between_goals <
        (due_record.days_since_last_goal : Rat) ∧
      ∃ g, _next_game_for_team env_due.schedule_today
        due_record.player.team_id = some g) :=
  ⟨eval_due, C3_emitted_invariant env_due [due_record] due_record eval_due (by simp)⟩

/-- C4: the cadence estimator returns 0.0 below two dates; for two or more
dates it returns the arithmetic mean of the successive whole-day gaps of
the ascending sort — equivalently (by telescoping) the min-to-max spread
over one less than the date count, duplicates included; dates
`[d, d+5, d+10]` yield 5.0, and the duplicate in `[d, d, d+4]` pulls the
mean down to 2.0 instead of the deduplicated 4.0. -/
theorem C4_cadence_estimator :
    (∀ dates : List Date, dates.length < 2 →
      average_days_between_games dates = 0) ∧
    (∀ (dates : List Date) (dmin dmax : Date), 2 ≤ dates.length →
      dates.min? = some dmin → dates.max? = some dmax →
      average_days_between_games dates =
        ((dmax - dmin : Int) : Rat) / ((dates.length : Rat) - 1)) ∧
    (∀ d : Date, average_days_between_games [d, d + 5, d + 10] = 5) ∧
    (∀ d : Date, average_days_between_games [d, d, d + 4] = 2) := by
  refine ⟨?_, avg_eq_spread, ?_, ?_⟩
  · intro dates h
    unfold average_days_between_games
    rw [if_pos h]
  · intro d
    have hmin : ([d, d + 5, d + 10] : List Date).min? = some d := by
      show some (List.foldl min d [d + 5, d + 10]) = some d
      congr 1
      rw [List.foldl_cons, List.foldl_cons, List.foldl_nil,
        min_eq_left (show d ≤ d + 5 by linarith),
        min_eq_left (show d ≤ d + 10 by linarith)]
    have hmax : ([d, d + 5, d + 10] : List Date).max? = some (d + 10) := by
      show some (List.foldl max d [d + 5, d + 10]) = some (d + 10)
      congr 1
      rw [List.foldl_cons, List.foldl_cons, List.foldl_nil,
        max_eq_right (show d ≤ d + 5 by linarith),
        max_eq_right (show d + 5 ≤ d + 10 by linarith)]
    rw [avg_eq_spread _ d (d + 10) (by simp) hmin hmax]
    push_cast
    ring_nf
    norm_num
  · intro d
    have hmin : ([d, d, d + 4] : List Date).min? = some d := by
      show some (List.foldl min d [d, d + 4]) = some d
      congr 1
      rw [List.foldl_cons, List.foldl_cons, List.foldl_nil,
        min_self, min_eq_left (show d ≤ d + 4 by linarith)]
    have hmax : ([d, d, d + 4] : List Date).max? = some (d + 4) := by
      show some (List.foldl max d [d, d + 4]) = some (d + 4)
      congr 1
      rw [List.foldl_cons, List.foldl_cons, List.foldl_nil,
        max_self, max_eq_right (show d ≤ d + 4 by linarith)]
    rw [avg_eq_spread _ d (d + 4) (by simp) hmin hmax]
    push_cast
    ring_nf
    norm_num

/-- C4 witness: a singleton gives 0.0, and `[0, 5, 10]` gives 5.0. -/
theorem C4_witness :
    (([7] : List Date).length < 2 ∧ average_days_between_games [7] = 0) ∧
    average_days_between_games [0, 5, 10] = 5 :=
  ⟨⟨by decide, C4_cadence_estimator.1 [7] (by decide)⟩, by
    have h := C4_cadence_estimator.2.2.1 0
    norm_num at h
    exact h⟩

/-- C5: the cadence estimate depends only on the multiset of dates. -/
theorem C5_order_invariant : ∀ (l1 l2 : List Date), l1.Perm l2 →
    average_days_between_games l1 = average_days_between_games l2 := by
  intro l1 l2 h
  have hsort : List.insertionSort (· ≤ ·) l1 = List.insertionSort (· ≤ ·) l2 :=
    List.eq_of_perm_of_sorted
      ((List.perm_insertionSort _ _).trans (h.trans (List.perm_insertionSort _ _).symm))
      (List.sorted_insertionSort _ _) (List.sorted_insertionSort _ _)
  unfold average_days_between_games
  rw [h.length_eq, hsort]

/-- C5 witness: a shuffle of `[0, 5, 10]` leaves the estimate unchanged. -/
theorem C5_witness : ([0, 5, 10] : List Date).Perm [10, 0, 5] ∧
    average_days_between_games [0, 5, 10] =
      average_days_between_games [10, 0, 5] :=
  ⟨by decide, C5_order_invariant _ _ (by decide)⟩

/-- A successful `last_goal_date` run means the underlying extraction
succeeded. -/
lemma last_goal_date_ok_extract {log : List GameLogEntry} {v : Option Date}
    (h : last_goal_date log = .ok v) :
    ∃ gg, extract_dates (log.filter fun e => 0 < entryGoals e) = .ok gg := by
  unfold last_goal_date at h
  cases hr : extract_dates (log.filter fun e => 0 < entryGoals e) with
  | error err => rw [hr] at h; simp at h
  | ok gg => exact ⟨gg, rfl⟩

/-- C6: a successful `last_goal_date` is the maximum date over the entries
with goals scored > 0, and is the explicit `none` exactly when no entry
scored; the orchestrator excludes a player at the drought step exactly when
that value is absent: `ok none` forces exclusion, and every emitted record
carries a present last-goal date. -/
theorem C6_last_goal : ∀ (log : List GameLogEntry) (v : Option Date),
    last_goal_date log = .ok v →
    (v = (goal_dates log).max? ∧
      (v = none ↔ ∀ e ∈ log, entryGoals e ≤ 0)) ∧
    (∀ (env : Env) (p : PlayerBaseline),
      last_goal_date (env.gamelog p.player_id) = .ok none →
      process_player env p = .ok none) ∧
    (∀ (env : Env) (p : PlayerBaseline) (s : PlayerDueStatus),
      process_player env p = .ok (some s) →
      last_goal_date (env.gamelog p.player_id) = .ok (some s.last_goal_date)) := by
  intro log v h
  refine ⟨⟨last_goal_date_ok h, ?_⟩, ?_, ?_⟩
  · rw [last_goal_date_ok h, List.max?_eq_none_iff]
    constructor
    · intro hemp e he
      by_contra hpos
      obtain ⟨gg, hgg⟩ := last_goal_date_ok_extract h
      have hmem : e ∈ log.filter fun x => 0 < entryGoals x :=
        List.mem_filter.mpr ⟨he, by simpa using not_le.mp hpos⟩
      have hnm := extract_dates_no_missing hgg e hmem
      cases hd : e.gameDate with
      | none => exact hnm hd
      | some d =>
        have hdm : d ∈ goal_dates log := by
          unfold goal_dates
          exact List.mem_filterMap.mpr ⟨e, hmem, by rw [hd]⟩
        rw [hemp] at hdm
        simp at hdm
    · intro hall
      unfold goal_dates
      have hfil : log.filter (fun e => 0 < entryGoals e) = [] := by
        rw [List.filter_eq_nil_iff]
        intro e he
        simpa using not_lt.mpr (hall e he)
      rw [hfil]
      rfl
  · intro env p hnone
    unfold process_player
    rw [hnone]
  · exact fun env p s hp => (process_player_some_spec hp).2.1

/-- C6 witness: on the spec's example log (goals `[0,0,2,0,3]` on days
1..5) the last goal date is day 5, and a player whose log never scores is
excluded. -/
theorem C6_witness :
    some (5 : Date) = (goal_dates log5).max? ∧
    process_player env_nogoal due_player = .ok none :=
  ⟨((C6_last_goal log5 (some 5) (by decide)).1).1,
   (C6_last_goal log5 (some 5) (by decide)).2.1 env_nogoal due_player (by decide)⟩

/-- C7: goals-per-game is 0.0 for zero games played (no division error in
the rational model — the division is never performed), and otherwise is
exactly goals divided by games played. -/
theorem C7_goals_per_game_total : ∀ p : PlayerBaseline,
    (p.games_played = 0 → p.goals_per_game = 0) ∧
    (p.games_played ≠ 0 →
      p.goals_per_game * (p.games_played : Rat) = (p.goals : Rat)) := by
  intro p
  constructor
  · intro h
    simp [PlayerBaseline.goals_per_game, h]
  · intro h
    rw [PlayerBaseline.goals_per_game, if_neg h]
    field_simp

/-- C7 witness: the spec's `goals=0, games_played=0` baseline yields 0.0,
and a 40-in-40 baseline satisfies the division equation. -/
theorem C7_witness :
    PlayerBaseline.goals_per_game ⟨1, "a", 1, "a", 0, 0⟩ = 0 ∧
    PlayerBaseline.goals_per_game ⟨2, "b", 1, "b", 40, 40⟩ * ((40 : Int) : Rat) =
      ((40 : Int) : Rat) :=
  ⟨(C7_goals_per_game_total _).1 rfl, (C7_goals_per_game_total _).2 (by decide)⟩

/-- C8: the previous season id is the literal integer decrement of the
current id — for the year-pair id "20232024" it is "20232023", not the
real-encoding previous season "20222023". -/
theorem C8_previous_season :
    (∀ (s : String) (n : Int), pyIntOfString s = some n →
      get_previous_season_id s = some (toString (n - 1))) ∧
    get_previous_season_id "20232024" = some "20232023" ∧
    get_previous_season_id "20232024" ≠ some "20222023" := by
  refine ⟨?_, by decide, by decide⟩
  intro s n h
  simp [get_previous_season_id, h]

/-- C8 witness: the parse and decrement on a concrete season id. -/
theorem C8_witness :
    pyIntOfString "20242025" = some 20242025 ∧
    get_previous_season_id "20242025" = some (toString ((20242025 : Int) - 1)) :=
  ⟨by decide, C8_previous_season.1 "20242025" 20242025 (by decide)⟩

set_option maxRecDepth 8000 in
/-- C9: the claim that a non-empty report consists of a header line, a
separator line and one row per record is false: the formatter emits an
extra leading title line, so one record yields four lines (three newlines),
not the three lines (two newlines) the claim describes. -/
theorem C9_counterexample :
    format_due_players [due_record] =
      "Past due goal scorers with games today:" ++ "\n" ++
      "Player | Team | Days Since Last Goal | Expected Days | Opponent | Game Time" ++ "\n" ++
      "------ | ---- | -------------------- | ------------- | -------- | ---------" ++ "\n" ++
      "Pat | AVA | 10 | 3.0 | Bruins | 19:00" ∧
    (format_due_players [due_record]).data.count '\n' = 3 ∧
    ¬ (format_due_players [due_record]).data.count '\n' = 2 := by
  rw [format_due]
  exact ⟨by decide, by decide, by decide⟩

/-- Rendering an integer remainder modulo ten takes a single digit. -/
lemma exists_digit_toString_emod (m : Int) :
    ∃ c : Char, c.isDigit = true ∧ toString (m % 10) = c.toString := by
  have h0 : 0 ≤ m % 10 := Int.emod_nonneg m (by norm_num)
  have h10 : m % 10 < 10 := Int.emod_lt_of_pos m (by norm_num)
  set k := m % 10 with hk
  interval_cases k
  · exact ⟨'0', by decide, by decide⟩
  · exact ⟨'1', by decide, by decide⟩
  · exact ⟨'2', by decide, by decide⟩
  · exact ⟨'3', by decide, by decide⟩
  · exact ⟨'4', by decide, by decide⟩
  · exact ⟨'5', by decide, by decide⟩
  · exact ⟨'6', by decide, by decide⟩
  · exact ⟨'7', by decide, by decide⟩
  · exact ⟨'8', by decide, by decide⟩
  · exact ⟨'9', by decide, by decide⟩

/-- C9 (amended): the empty report is the exact literal sentence; a
non-empty report is the title line, the header line, the separator line and
one pipe-delimited row per record joined by newlines; each row lists name,
team abbreviation, integer drought, expected days, opponent and start time
in that order; and the expected-days field always renders with exactly one
digit after the decimal point. -/
theorem C9_amended_format :
    format_due_players [] =
      "No players are past due based on last season's scoring rate." ∧
    (∀ l : List PlayerDueStatus, l ≠ [] →
      format_due_players l = String.intercalate "\n"
        ("Past due goal scorers with games today:" ::
         "Player | Team | Days Since Last Goal | Expected Days | Opponent | Game Time" ::
         "------ | ---- | -------------------- | ------------- | -------- | ---------" ::
         l.map format_row)) ∧
    (∀ e : PlayerDueStatus, format_row e =
      e.player.name ++ " | " ++ e.player.team_abbrev ++ " | " ++
        toString e.days_since_last_goal ++ " | " ++
        formatFixed1 e.expected_days_between_goals ++ " | " ++
        e.next_game_opponent ++ " | " ++ e.next_game_start_time) ∧
    (∀ q : Rat, ∃ (pre : String) (c : Char), c.isDigit = true ∧
      formatFixed1 q = pre ++ "." ++ c.toString) := by
  refine ⟨rfl, ?_, fun e => rfl, ?_⟩
  · intro l hl
    unfold format_due_players
    rw [if_neg (by simpa using hl)]
  · intro q
    simp only [formatFixed1]
    by_cases hn : roundHalfEven (q * 10) < 0
    · rw [if_pos hn]
      obtain ⟨c, hc, hcs⟩ := exists_digit_toString_emod (-(roundHalfEven (q * 10)))
      exact ⟨"-" ++ toString (-(roundHalfEven (q * 10)) / 10), c, hc, by rw [hcs]⟩
    · rw [if_neg hn]
      obtain ⟨c, hc, hcs⟩ := exists_digit_toString_emod (roundHalfEven (q * 10))
      exact ⟨toString (roundHalfEven (q * 10) / 10), c, hc, by rw [hcs]⟩

/-- C9 witness: the amended format evaluated on the due-scenario record. -/
theorem C9_witness :
    format_due_players [due_record] = String.intercalate "\n"
      ("Past due goal scorers with games today:" ::
       "Player | Team | Days Since Last Goal | Expected Days | Opponent | Game Time" ::
       "------ | ---- | -------------------- | ------------- | -------- | ---------" ::
       [due_record].map format_row) :=
  C9_amended_format.2.1 [due_record] (by simp)

/-- C10: under the well-formedness condition that fetched games-played
counts are nonnegative, every emitted record has a strictly positive
expected-days value (the candidate filter forces goals at least 40, the
zero-cadence and zero-goals-per-game exclusions force the factors positive)
and a drought of at least one whole day. -/
theorem C10_emitted_positive : ∀ (env : Env) (res : List PlayerDueStatus)
    (s : PlayerDueStatus),
    (∀ e ∈ env.skater_data, 0 ≤ e.gamesPlayed.getD 0) →
    evaluate_due_players env = .ok res → s ∈ res →
    0 < s.expected_days_between_goals ∧ 1 ≤ s.days_since_last_goal := by
  intro env res s hwf h hs
  unfold evaluate_due_players at h
  obtain ⟨p, hp, hproc⟩ := eval_loop_mem env h s hs
  unfold candidate_baselines at hp
  have hptop : p ∈ fetch_top_goal_scorers env.skater_data 40 :=
    (List.mem_filter.mp hp).1
  obtain ⟨hgoals, e, he, hgp⟩ := mem_fetch_top hptop
  have hgp0 : (0 : Int) ≤ p.games_played := hgp ▸ hwf e he
  obtain ⟨-, -, -, hgpg, ⟨ds, havg, hexp⟩, hlt2, -⟩ := process_player_some_spec hproc
  have hgpne : p.games_played ≠ 0 := by
    intro h0
    exact hgpg (by simp [PlayerBaseline.goals_per_game, h0])
  have hgpgpos : 0 < p.goals_per_game := by
    rw [PlayerBaseline.goals_per_game, if_neg hgpne]
    apply div_pos
    · exact_mod_cast lt_of_lt_of_le (by norm_num : (0 : Int) < 40) hgoals
    · exact_mod_cast lt_of_le_of_ne hgp0 (Ne.symm hgpne)
  have havgpos : 0 < average_days_between_games ds :=
    lt_of_le_of_ne (avg_nonneg ds) (Ne.symm havg)
  have hexppos : 0 < s.expected_days_between_goals := by
    rw [hexp]
    exact mul_pos (one_div_pos.mpr hgpgpos) havgpos
  refine ⟨hexppos, ?_⟩
  have hcast : (0 : Rat) < (s.days_since_last_goal : Rat) := lt_trans hexppos hlt2
  have hdays : 0 < s.days_since_last_goal := by exact_mod_cast hcast
  omega

/-- C10 witness: the due-scenario record has expected days 3.0 > 0 and a
10-day drought. -/
theorem C10_witness :
    (∀ e ∈ env_due.skater_data, 0 ≤ e.gamesPlayed.getD 0) ∧
    (0 < due_record.expected_days_between_goals ∧
      1 ≤ due_record.days_since_last_goal) :=
  ⟨by decide,
   C10_emitted_positive env_due [due_record] due_record (by decide) eval_due (by simp)⟩

end NhlDue
